import Mathlib

/-!
Verification of the `pelican_ftp.py` synchronization script.

The script walks a fixed manifest `SUB_PATHS` of (sub_path, file_spec,
permissions) triples, globs the local source tree, uploads each file whose
modification time is newer than the sentinel marker file's modification time
(or all files when `force_update` is set, or when the marker is absent), and
touches the marker at the end of a run whose counter is positive.

The shallow embedding below models the filesystem as a list of local files,
the FTP server as an oracle `FTPEnv` assigning each issued command an outcome
(a response string, or a raised `ftplib` error), and the script's functions
`upload_file`, `check_and_upload_files`, `handle_options` and `main` as pure
functions over that oracle.  Ghost observation fields (`stored`,
`attemptedPaths`) record which branch of the source executed; they do not
influence control flow.
-/

namespace PelicanFTP

/-- Model of Python `str.startswith` for a plain prefix. -/
def strStartsWith (s p : String) : Bool := p.data.isPrefixOf s.data

/-- Model of Python `str.endswith` for a plain suffix. -/
def strEndsWith (s p : String) : Bool := p.data.reverse.isPrefixOf s.data.reverse

/-- Model of `posixpath.join` for two components: an absolute second component
replaces the first, otherwise a `/` separator is inserted unless the first
component is empty or already ends in `/`. -/
def posixJoin (a b : String) : String :=
  if strStartsWith b "/" then b
  else if a = "" ∨ strEndsWith a "/" then a ++ b
  else a ++ "/" ++ b

/-- Model of `os.path.basename`: the suffix after the last `/`. -/
def basename (p : String) : String :=
  String.mk ((p.data.reverse.takeWhile (fun c => c != '/')).reverse)

/-- Helper for the `*` wildcard: try to match the rest of the pattern against
every suffix of the name. -/
def wildStar (m : List Char → Bool) : List Char → Bool
  | [] => m []
  | c :: cs => m (c :: cs) || wildStar m cs

/-- Shell-style wildcard matching as performed by `fnmatch` on the glob
patterns of the manifest (`*` matches any run of characters, `?` any single
character, anything else matches literally). -/
def wildMatch : List Char → List Char → Bool
  | [], cs => cs.isEmpty
  | '*' :: ps, cs => wildStar (wildMatch ps) cs
  | '?' :: _, [] => false
  | '?' :: ps, _ :: cs => wildMatch ps cs
  | _ :: _, [] => false
  | p :: ps, c :: cs => (p == c) && wildMatch ps cs

/-- Model of `glob` filename matching against one pattern, including glob's
rule that a name starting with a dot is only matched by a pattern starting
with a dot. -/
def globMatch (pattern name : String) : Bool :=
  if strStartsWith name "." ∧ ¬ strStartsWith pattern "." then false
  else wildMatch pattern.data name.data

/-- The commands the script issues on the FTP control connection. -/
inductive FTPCmd where
  | connect
  | cwd (path : String)
  | stor (filename : String)
  | site (cmd : String)
  deriving DecidableEq

/-- Outcome of one FTP operation: a response string, or a raised
`ftplib` error (all of which are subclasses of `ftplib.all_errors`). -/
inductive Outcome where
  | ok (response : String)
  | exn (msg : String)
  deriving DecidableEq

/-- The remote environment: the outcome of a command, given the history of
commands already issued on the connection. -/
def FTPEnv := List FTPCmd → FTPCmd → Outcome

/-- The state of the FTP session: the commands issued so far and the working
directory (`none` before any successful directory change). -/
structure Session where
  history : List FTPCmd
  dir : Option String
  deriving DecidableEq

/-- Issue one command: record it in the history; a successful `cwd` updates
the session's working directory. -/
def issue (env : FTPEnv) (s : Session) (c : FTPCmd) : Outcome × Session :=
  let o := env s.history c
  (o, { history := s.history ++ [c],
        dir := match c, o with
          | FTPCmd.cwd p, Outcome.ok _ => some p
          | _, _ => s.dir })

/-- A log record (level and message), mirroring the `logging` calls. -/
inductive LogEntry where
  | error (msg : String)
  | info (msg : String)
  | debug (msg : String)
  deriving DecidableEq

/-- Result of one `upload_file` call.  `raised` is `some e` when the call
itself raises (which in the source can only happen at the final, unguarded
`ftp_connection.cwd(os.path.join("/", remote_base))`).  `stored` is a ghost
flag recording whether the `res.startswith("226")` success branch ran. -/
structure FileReport where
  session : Session
  logs : List LogEntry
  raised : Option String
  stored : Bool
  deriving DecidableEq

/-- The final statement of `upload_file`, outside the `try`/`except`:
`ftp_connection.cwd(os.path.join("/", remote_base))`.  An error here is not
caught and makes `upload_file` raise. -/
def returnToRoot (env : FTPEnv) (s : Session) (remote_base : String)
    (logs : List LogEntry) (stored : Bool) : FileReport :=
  let (o, s') := issue env s (FTPCmd.cwd (posixJoin "/" remote_base))
  match o with
  | Outcome.ok _ => ⟨s', logs, none, stored⟩
  | Outcome.exn e => ⟨s', logs, some e, stored⟩

/-- Model of `upload_file`: change into the remote directory, store the file,
and on a response starting with `226` issue a `SITE CHMOD`; every `ftplib`
error inside the `try` block is caught and logged; finally return to
`/` + `remote_base` (unguarded).  The local `open` is not modelled as
failing: the candidate was just produced by the glob. -/
def upload_file (env : FTPEnv) (s : Session)
    (local_path filename remote_base sub_path : String)
    (permissions_int : Nat) : FileReport :=
  let remote_path := posixJoin (posixJoin "/" remote_base) sub_path
  let _ := local_path
  let (o1, s1) := issue env s (FTPCmd.cwd remote_path)
  match o1 with
  | Outcome.exn e =>
      returnToRoot env s1 remote_base
        [LogEntry.error ("FTP Error: '" ++ e ++ "'")] false
  | Outcome.ok _ =>
      let l1 := [LogEntry.debug ("Changed directory to " ++ remote_path)]
      let (o2, s2) := issue env s1 (FTPCmd.stor filename)
      match o2 with
      | Outcome.exn e =>
          returnToRoot env s2 remote_base
            (l1 ++ [LogEntry.error ("FTP Error: '" ++ e ++ "'")]) false
      | Outcome.ok res =>
          if strStartsWith res "226" = false then
            returnToRoot env s2 remote_base
              (l1 ++ [LogEntry.error ("FAILURE uploading '" ++ filename ++ "'"),
                      LogEntry.error res]) false
          else
            let l2 := l1 ++ [LogEntry.info ("Uploaded '" ++ filename ++ "' to " ++ remote_path)]
            let (o3, s3) := issue env s2
              (FTPCmd.site ("SITE CHMOD " ++ toString permissions_int ++ " " ++ filename))
            match o3 with
            | Outcome.ok r2 =>
                returnToRoot env s3 remote_base
                  (l2 ++ [LogEntry.debug ("Permissions change: '" ++ r2 ++ "'")]) true
            | Outcome.exn e =>
                returnToRoot env s3 remote_base
                  (l2 ++ [LogEntry.error ("FTP Error: '" ++ e ++ "'")]) true

/-- A local file below the source path: the directory part of its path
relative to the source path, its final name component, and its modification
time (a Unix timestamp; `os.path.getmtime`). -/
structure LocalFile where
  subdir : String
  name : String
  mtime : Int
  deriving DecidableEq

/-- The local state the script reads and writes: the files below the source
path, and whether/when the sentinel marker file
(`creds.LAST_UPDATE_FILENAME`) exists and was last modified. -/
structure World where
  files : List LocalFile
  markerExists : Bool
  markerMtime : Int
  deriving DecidableEq

/-- The manifest: sub_path, file_spec, permissions (int), exactly as in the
source. -/
def SUB_PATHS : List (String × String × Nat) := [
  ("", "*.html", 664),
  ("author", "*.html", 664),
  ("category", "*.html", 664),
  ("feeds", "*.xml", 664),
  ("images", "*.jpg", 644),
  ("images", "*.jpeg", 644),
  ("images", "*.png", 644),
  ("images", "*.gif", 644),
  ("pages", "*.html", 664),
  ("tags", "*.html", 664),
  ("theme/css", "*.css", 644),
  ("theme/fonts", "*.otf", 644),
  ("theme/fonts", "*.ttf", 644),
  ("theme/images", "*.jpg", 644),
  ("theme/images", "*.png", 644),
  ("theme/js", "*.js", 644)
]

/-- Model of `glob.glob(os.path.join(source_path, sub_path, file_spec))`:
the files directly in `sub_path` whose name matches the pattern, in
filesystem order. -/
def globHere (w : World) (sub_path file_spec : String) : List LocalFile :=
  w.files.filter (fun f => f.subdir == sub_path && globMatch file_spec f.name)

/-- A candidate produced by the manifest walk: the file together with the
manifest entry's sub_path and permissions. -/
abbrev Candidate := LocalFile × String × Nat

/-- The nested `for sub_path, file_spec, perms_int in SUB_PATHS: for fs_obj in
glob.glob(...)` walk, producing candidates in walk order. -/
def candidatesOf (w : World) : List (String × String × Nat) → List Candidate
  | [] => []
  | e :: es => (globHere w e.1 e.2.1).map (fun f => (f, e.1, e.2.2)) ++ candidatesOf w es

/-- All candidates of a run, in manifest-walk order. -/
def candidateList (w : World) : List Candidate := candidatesOf w SUB_PATHS

/-- The cutoff time: the marker's modification time if the marker exists,
else `0` (the source's bodge value for a missing marker). -/
def cutoffTime (w : World) : Int := if w.markerExists then w.markerMtime else 0

/-- The per-candidate gate of line 81:
`force_update or os.path.getmtime(fs_obj) > last_update_date_time`. -/
def qualifies (force_update : Bool) (cutoff : Int) (f : LocalFile) : Bool :=
  force_update || decide (cutoff < f.mtime)

/-- The qualifying candidates of a run, in walk order. -/
def attemptList (w : World) (force_update : Bool) : List Candidate :=
  (candidateList w).filter (fun c => qualifies force_update (cutoffTime w) c.1)

/-- The local path handed to `upload_file` for one candidate:
`os.path.join(source_path, sub_path)` then the glob result's name. -/
def candPath (source_path : String) (c : Candidate) : String :=
  posixJoin (posixJoin source_path c.2.1) c.1.name

/-- Accumulated state of the manifest loop inside `check_and_upload_files`:
the session, the `count` variable, the logs, a ghost list of the local paths
passed to `upload_file`, and the exception aborting the loop, if any. -/
structure RunState where
  session : Session
  count : Nat
  logs : List LogEntry
  attemptedPaths : List String
  aborted : Option String
  deriving DecidableEq

/-- The manifest loop over the qualifying candidates: call `upload_file` and
then `count += 1`; an exception raised by `upload_file` skips the increment
and aborts the remaining walk (there is no `try` around the call). -/
def runFiles (env : FTPEnv) (source_path remote_base : String) :
    RunState → List Candidate → RunState
  | st, [] => st
  | st, c :: rest =>
      let fs_obj := candPath source_path c
      let r := upload_file env st.session fs_obj (basename fs_obj) remote_base c.2.1 c.2.2
      match r.raised with
      | some e =>
          { session := r.session, count := st.count,
            logs := st.logs ++ r.logs,
            attemptedPaths := st.attemptedPaths ++ [fs_obj],
            aborted := some e }
      | none =>
          runFiles env source_path remote_base
            { session := r.session, count := st.count + 1,
              logs := st.logs ++ r.logs,
              attemptedPaths := st.attemptedPaths ++ [fs_obj],
              aborted := none } rest

/-- Result of one `check_and_upload_files` run: the final local state, the
`count`, the commands issued, the logs, the ghost attempted-path list, and
the exception propagating out of the function, if any. -/
structure RunResult where
  world : World
  count : Nat
  trace : List FTPCmd
  logs : List LogEntry
  attemptedPaths : List String
  raised : Option String
  deriving DecidableEq

/-- The tail of `check_and_upload_files` after the `with` block: an aborted
walk propagates its exception and leaves the marker untouched; a completed
walk logs the count and touches the marker (to `endTime`, the wall-clock
time at the end of the run) exactly when `count > 0`. -/
def finishRun (w : World) (endTime : Int) (st : RunState) : RunResult :=
  match st.aborted with
  | some e => ⟨w, st.count, st.session.history, st.logs, st.attemptedPaths, some e⟩
  | none =>
      let logs := st.logs ++ [LogEntry.info ("Uploaded " ++ toString st.count ++ " files.")]
      if 0 < st.count then
        ⟨{ w with markerExists := true, markerMtime := endTime }, st.count,
         st.session.history, logs, st.attemptedPaths, none⟩
      else
        ⟨w, st.count, st.session.history, logs, st.attemptedPaths, none⟩

/-- Model of `check_and_upload_files`: read the cutoff, open the connection
(a failure propagates), walk the manifest, and finish as in `finishRun`. -/
def check_and_upload_files (env : FTPEnv) (w : World) (endTime : Int)
    (source_path remote_base : String) (force_update : Bool) : RunResult :=
  let s0 : Session := ⟨[], none⟩
  let (oc, s1) := issue env s0 FTPCmd.connect
  match oc with
  | Outcome.exn e => ⟨w, 0, s1.history, [], [], some e⟩
  | Outcome.ok _ =>
      finishRun w endTime
        (runFiles env source_path remote_base ⟨s1, 0, [], [], none⟩
          (attemptList w force_update))

/-- Model of `handle_options`: an empty `--source_path` (also its default) is
a fatal configuration error (`sys.exit(1)`), modelled as `none`. -/
def handle_options (source_path remote_base : String) (force_update : Bool) :
    Option (String × String × Bool) :=
  if source_path = "" then none
  else some (source_path, remote_base, force_update)

/-- How the process terminates: an explicit exit code, or an uncaught
exception (which CPython turns into a traceback and a nonzero status). -/
inductive ExitStatus where
  | code (n : Nat)
  | uncaught (e : String)
  deriving DecidableEq

/-- Whether an exit status indicates normal termination. -/
def isNormalExit : ExitStatus → Bool
  | ExitStatus.code 0 => true
  | _ => false

/-- Result of one process run: exit status, final local state, and the FTP
commands that were issued. -/
structure ProcResult where
  exit : ExitStatus
  world : World
  trace : List FTPCmd
  deriving DecidableEq

/-- Model of `main`: parse options (an empty source path exits with status 1
before any network activity), then run `check_and_upload_files`; an
exception propagating out of it is uncaught. -/
def main (env : FTPEnv) (w : World) (endTime : Int)
    (source_path remote_base : String) (force_update : Bool) : ProcResult :=
  match handle_options source_path remote_base force_update with
  | none => ⟨ExitStatus.code 1, w, []⟩
  | some (sp, rb, fu) =>
      let r := check_and_upload_files env w endTime sp rb fu
      match r.raised with
      | some e => ⟨ExitStatus.uncaught e, r.world, r.trace⟩
      | none => ⟨ExitStatus.code 0, r.world, r.trace⟩

/-- Recognizer for `SITE` commands in a trace; a `SITE CHMOD` is issued
exactly once per store whose response starts with `226`, so counting them
counts the successful transfers of a run. -/
def isSiteCmd : FTPCmd → Bool
  | FTPCmd.site _ => true
  | _ => false

/-- Number of `SITE` commands in a trace (= number of successful stores). -/
def siteCount (t : List FTPCmd) : Nat := (t.filter isSiteCmd).length

/-- A fully healthy server: every store succeeds with a `226` response. -/
def envOk : FTPEnv := fun _ c =>
  match c with
  | FTPCmd.stor _ => Outcome.ok "226 Transfer complete"
  | _ => Outcome.ok "250 OK"

/-- A server rejecting every store with a `550` response (a per-file
failure: the response does not start with `226`). -/
def envC1ce : FTPEnv := fun _ c =>
  match c with
  | FTPCmd.stor _ => Outcome.ok "550 Permission denied"
  | _ => Outcome.ok "250 OK"

/-- One qualifying candidate (`a.html`, newer than the marker). -/
def wC1ce : World := ⟨[⟨"", "a.html", 10⟩], true, 5⟩

/-- A server rejecting the store of `fail.html` with `550` and accepting
every other store with `226`. -/
def envC1w : FTPEnv := fun _ c =>
  match c with
  | FTPCmd.stor "fail.html" => Outcome.ok "550 Permission denied"
  | FTPCmd.stor _ => Outcome.ok "226 Transfer complete"
  | _ => Outcome.ok "250 OK"

/-- Two qualifying candidates; the first one's transfer will fail. -/
def wC1w : World := ⟨[⟨"", "fail.html", 9⟩, ⟨"", "ok.html", 9⟩], true, 1⟩

/-- A dropped connection during the store of `a2.html`: the store raises,
and so does the following (unguarded) restore `cwd` to `/`. -/
def envC2ce : FTPEnv := fun _ c =>
  match c with
  | FTPCmd.stor "a2.html" => Outcome.exn "conn reset"
  | FTPCmd.cwd "/" => Outcome.exn "conn lost"
  | _ => Outcome.ok "226 ok"

/-- Two qualifying candidates in `pages`; the first upload's store and the
restore `cwd` after it both raise. -/
def wC2ce : World := ⟨[⟨"pages", "a2.html", 50⟩, ⟨"pages", "b2.html", 60⟩], true, 10⟩

/-- A server on which every store raises (e.g. a transient transport
error) but every directory change succeeds. -/
def envC2w : FTPEnv := fun _ c =>
  match c with
  | FTPCmd.stor _ => Outcome.exn "boom"
  | _ => Outcome.ok "250 OK"

/-- A session as it looks right after login. -/
def sC2w : Session := ⟨[FTPCmd.connect], none⟩

/-- A server rejecting every store with a `550` response. -/
def envC3ce : FTPEnv := fun _ c =>
  match c with
  | FTPCmd.stor _ => Outcome.ok "550 refused"
  | _ => Outcome.ok "250 OK"

/-- One qualifying candidate in `tags`, marker mtime 100. -/
def wC3ce : World := ⟨[⟨"tags", "t3.html", 200⟩], true, 100⟩

/-- One qualifying candidate in `pages`, marker mtime 10. -/
def wC4w : World := ⟨[⟨"pages", "post4.html", 50⟩], true, 10⟩

/-- One qualifying candidate at the source root, marker mtime 3. -/
def wC5w : World := ⟨[⟨"", "index5.html", 5⟩], true, 3⟩

/-- No marker, and a matching candidate whose mtime is exactly the epoch. -/
def wC6ce : World := ⟨[⟨"", "epoch6.html", 0⟩], false, 0⟩

/-- No marker, and a matching candidate with a positive mtime. -/
def wC6w : World := ⟨[⟨"feeds", "all6.xml", 12⟩], false, 0⟩

/-- A server accepting stores with `226` but raising on the `SITE CHMOD`. -/
def envC7w : FTPEnv := fun _ c =>
  match c with
  | FTPCmd.site _ => Outcome.exn "550 chmod refused"
  | FTPCmd.stor _ => Outcome.ok "226 done"
  | _ => Outcome.ok "250 OK"

/-- An unreachable or refusing server: the connection itself raises. -/
def envC9ce : FTPEnv := fun _ _ => Outcome.exn "gaierror"

/-- A world with no candidate files at all. -/
def wC9ce : World := ⟨[], true, 0⟩

/-- A server rejecting every store with a `553` response (per-file failure)
but otherwise healthy. -/
def envC9w : FTPEnv := fun _ c =>
  match c with
  | FTPCmd.stor _ => Outcome.ok "553 nope"
  | _ => Outcome.ok "250 OK"

/-- One qualifying candidate in `tags`; its transfer will fail. -/
def wC9w : World := ⟨[⟨"tags", "t9.html", 100⟩], true, 1⟩

/-- One qualifying candidate in `images`. -/
def wC10w : World := ⟨[⟨"images", "cat10.jpg", 9⟩], true, 1⟩

/-! ### Helper lemmas: strings and paths -/

theorem takeWhile_append_of_all {p : Char → Bool} :
    ∀ u v : List Char, (∀ c ∈ u, p c = true) →
      (u ++ v).takeWhile p = u ++ v.takeWhile p := by
  intro u v h
  induction u with
  | nil => rfl
  | cons a u ih =>
      have hpa : p a = true := h a (List.mem_cons_self a u)
      have hrest : ∀ c ∈ u, p c = true := fun c hc => h c (List.mem_cons_of_mem a hc)
      simp [List.takeWhile_cons, hpa, ih hrest]

theorem takeWhile_of_all {p : Char → Bool} (u : List Char)
    (h : ∀ c ∈ u, p c = true) : u.takeWhile p = u := by
  have := takeWhile_append_of_all u [] h
  simpa using this

theorem endsWith_slash_shape {a : String} (h : strEndsWith a "/" = true) :
    ∃ t, a.data.reverse = '/' :: t := by
  unfold strEndsWith at h
  cases hd : a.data.reverse with
  | nil => rw [hd] at h; simp [List.isPrefixOf] at h
  | cons c t =>
      rw [hd] at h
      simp only [List.isPrefixOf, List.isPrefixOf_nil_left, Bool.and_true] at h
      have : ('/' : Char) = c := by
        by_contra hne
        simp [show (('/' : Char) == c) = false by simp [hne]] at h
      exact ⟨t, by rw [← this]⟩

theorem startsWith_slash_false {name : String} (h : ∀ c ∈ name.data, c ≠ '/') :
    strStartsWith name "/" = false := by
  unfold strStartsWith
  cases hd : name.data with
  | nil => simp [List.isPrefixOf]
  | cons c cs =>
      have hcne : c ≠ '/' := h c (by simp [hd])
      simp [List.isPrefixOf, show (('/' : Char) == c) = false by
        simp only [beq_eq_false_iff_ne, ne_eq]
        exact fun hh => hcne hh.symm]

theorem basename_rev (p : String) :
    basename p = String.mk ((p.data.reverse.takeWhile (fun c => c != '/')).reverse) := rfl

theorem basename_of_no_slash {name : String} (h : ∀ c ∈ name.data, c ≠ '/') :
    basename name = name := by
  unfold basename
  have hall : ∀ c ∈ name.data.reverse, (c != '/') = true := by
    intro c hc
    simp [h c (List.mem_reverse.mp hc)]
  rw [takeWhile_of_all _ hall, List.reverse_reverse]

theorem basename_posixJoin (a name : String) (h : ∀ c ∈ name.data, c ≠ '/') :
    basename (posixJoin a name) = name := by
  have hall : ∀ c ∈ name.data.reverse, (c != '/') = true := by
    intro c hc
    simp [h c (List.mem_reverse.mp hc)]
  have hns := startsWith_slash_false h
  unfold posixJoin
  rw [hns]
  simp only [Bool.false_eq_true, if_false]
  by_cases hc : a = "" ∨ strEndsWith a "/" = true
  · rw [if_pos (by simpa using hc)]
    rcases hc with rfl | hc
    · simpa using basename_of_no_slash h
    · obtain ⟨t, ht⟩ := endsWith_slash_shape hc
      unfold basename
      have hdata : (a ++ name).data = a.data ++ name.data := rfl
      rw [hdata, List.reverse_append, ht,
        takeWhile_append_of_all _ _ hall]
      simp [List.takeWhile_cons]
  · rw [if_neg (by simpa using hc)]
    unfold basename
    have hdata : (a ++ "/" ++ name).data = (a.data ++ ['/']) ++ name.data := rfl
    rw [hdata, List.reverse_append, List.reverse_append,
      takeWhile_append_of_all _ _ hall]
    simp [List.takeWhile_cons]

theorem posixJoin_root (rb : String) (h : strStartsWith rb "/" = false) :
    posixJoin "/" rb = "/" ++ rb := by
  unfold posixJoin
  rw [h]
  simp only [Bool.false_eq_true, if_false]
  rw [if_pos (Or.inr (by decide))]

/-! ### Helper lemmas: `returnToRoot` and `upload_file` -/

theorem returnToRoot_history (env : FTPEnv) (s : Session) (rb : String)
    (logs : List LogEntry) (b : Bool) :
    (returnToRoot env s rb logs b).session.history
      = s.history ++ [FTPCmd.cwd (posixJoin "/" rb)] := by
  unfold returnToRoot issue
  cases env s.history (FTPCmd.cwd (posixJoin "/" rb)) <;> rfl

theorem returnToRoot_logs (env : FTPEnv) (s : Session) (rb : String)
    (logs : List LogEntry) (b : Bool) :
    (returnToRoot env s rb logs b).logs = logs := by
  unfold returnToRoot issue
  cases env s.history (FTPCmd.cwd (posixJoin "/" rb)) <;> rfl

theorem returnToRoot_stored (env : FTPEnv) (s : Session) (rb : String)
    (logs : List LogEntry) (b : Bool) :
    (returnToRoot env s rb logs b).stored = b := by
  unfold returnToRoot issue
  cases env s.history (FTPCmd.cwd (posixJoin "/" rb)) <;> rfl

theorem returnToRoot_raised_some (env : FTPEnv) (s : Session) (rb : String)
    (logs : List LogEntry) (b : Bool) (e : String) :
    (returnToRoot env s rb logs b).raised = some e ↔
      env s.history (FTPCmd.cwd (posixJoin "/" rb)) = Outcome.exn e := by
  unfold returnToRoot issue
  cases h : env s.history (FTPCmd.cwd (posixJoin "/" rb)) <;> simp

theorem returnToRoot_raised_ok (env : FTPEnv) (s : Session) (rb : String)
    (logs : List LogEntry) (b : Bool) (r : String)
    (h : env s.history (FTPCmd.cwd (posixJoin "/" rb)) = Outcome.ok r) :
    (returnToRoot env s rb logs b).raised = none := by
  unfold returnToRoot issue
  rw [h]

theorem returnToRoot_dir (env : FTPEnv) (s : Session) (rb : String)
    (logs : List LogEntry) (b : Bool)
    (h : (returnToRoot env s rb logs b).raised = none) :
    (returnToRoot env s rb logs b).session.dir = some (posixJoin "/" rb) := by
  unfold returnToRoot issue at h ⊢
  cases henv : env s.history (FTPCmd.cwd (posixJoin "/" rb)) <;>
    simp [henv] at h ⊢

theorem upload_file_shape (env : FTPEnv) (s : Session)
    (lp fn rb sp : String) (permissions_int : Nat) :
    ∃ (s' : Session) (logs : List LogEntry) (b : Bool),
      upload_file env s lp fn rb sp permissions_int = returnToRoot env s' rb logs b ∧
      ∃ mid, s'.history = s.history ++ mid ∧
        (∀ fn', FTPCmd.stor fn' ∈ mid → fn' = fn) := by
  unfold upload_file
  simp only [issue]
  cases h1 : env s.history (FTPCmd.cwd (posixJoin (posixJoin "/" rb) sp)) with
  | exn e1 =>
      dsimp only
      exact ⟨_, _, _, rfl, [FTPCmd.cwd (posixJoin (posixJoin "/" rb) sp)], rfl,
        by intro fn' hm; simp at hm⟩
  | ok r1 =>
      dsimp only
      cases h2 : env (s.history ++ [FTPCmd.cwd (posixJoin (posixJoin "/" rb) sp)])
          (FTPCmd.stor fn) with
      | exn e2 =>
          dsimp only
          refine ⟨_, _, _, rfl,
            [FTPCmd.cwd (posixJoin (posixJoin "/" rb) sp), FTPCmd.stor fn],
            by simp, ?_⟩
          intro fn' hm
          simp at hm
          exact hm
      | ok res =>
          dsimp only
          by_cases hres : strStartsWith res "226" = false
          · rw [if_pos hres]
            refine ⟨_, _, _, rfl,
              [FTPCmd.cwd (posixJoin (posixJoin "/" rb) sp), FTPCmd.stor fn],
              by simp, ?_⟩
            intro fn' hm
            simp at hm
            exact hm
          · rw [if_neg hres]
            cases h3 : env ((s.history ++ [FTPCmd.cwd (posixJoin (posixJoin "/" rb) sp)])
                ++ [FTPCmd.stor fn])
                (FTPCmd.site ("SITE CHMOD " ++ toString permissions_int ++ " " ++ fn)) with
            | ok r2 =>
                dsimp only
                refine ⟨_, _, _, rfl,
                  [FTPCmd.cwd (posixJoin (posixJoin "/" rb) sp), FTPCmd.stor fn,
                   FTPCmd.site ("SITE CHMOD " ++ toString permissions_int ++ " " ++ fn)],
                  by simp, ?_⟩
                intro fn' hm
                simp at hm
                exact hm
            | exn e3 =>
                dsimp only
                refine ⟨_, _, _, rfl,
                  [FTPCmd.cwd (posixJoin (posixJoin "/" rb) sp), FTPCmd.stor fn,
                   FTPCmd.site ("SITE CHMOD " ++ toString permissions_int ++ " " ++ fn)],
                  by simp, ?_⟩
                intro fn' hm
                simp at hm
                exact hm

theorem upload_file_last (env : FTPEnv) (s : Session)
    (lp fn rb sp : String) (permissions_int : Nat) :
    (upload_file env s lp fn rb sp permissions_int).session.history.getLast?
      = some (FTPCmd.cwd (posixJoin "/" rb)) := by
  obtain ⟨s', logs, b, heq, -⟩ := upload_file_shape env s lp fn rb sp permissions_int
  rw [heq, returnToRoot_history]
  exact List.getLast?_concat _

theorem upload_file_stor_mem (env : FTPEnv) (s : Session)
    (lp fn rb sp : String) (permissions_int : Nat) (fn' : String)
    (h : FTPCmd.stor fn' ∈ (upload_file env s lp fn rb sp permissions_int).session.history) :
    FTPCmd.stor fn' ∈ s.history ∨ fn' = fn := by
  obtain ⟨s', logs, b, heq, mid, hmid, hstor⟩ :=
    upload_file_shape env s lp fn rb sp permissions_int
  rw [heq, returnToRoot_history, hmid] at h
  simp only [List.mem_append, List.mem_singleton] at h
  rcases h with (h | h) | h
  · exact Or.inl h
  · exact Or.inr (hstor _ h)
  · exact absurd h (by simp)

theorem upload_file_raised_some (env : FTPEnv) (s : Session)
    (lp fn rb sp : String) (permissions_int : Nat) (e : String)
    (h : (upload_file env s lp fn rb sp permissions_int).raised = some e) :
    ∃ h', env h' (FTPCmd.cwd (posixJoin "/" rb)) = Outcome.exn e ∧
      (upload_file env s lp fn rb sp permissions_int).session.history
        = h' ++ [FTPCmd.cwd (posixJoin "/" rb)] := by
  obtain ⟨s', logs, b, heq, -⟩ := upload_file_shape env s lp fn rb sp permissions_int
  rw [heq] at h ⊢
  exact ⟨s'.history, (returnToRoot_raised_some env s' rb logs b e).mp h,
    by rw [returnToRoot_history]⟩

theorem upload_file_dir (env : FTPEnv) (s : Session)
    (lp fn rb sp : String) (permissions_int : Nat)
    (h : (upload_file env s lp fn rb sp permissions_int).raised = none) :
    (upload_file env s lp fn rb sp permissions_int).session.dir
      = some (posixJoin "/" rb) := by
  obtain ⟨s', logs, b, heq, -⟩ := upload_file_shape env s lp fn rb sp permissions_int
  rw [heq] at h ⊢
  exact returnToRoot_dir env s' rb logs b h

theorem upload_file_cwd_exn_logged (env : FTPEnv) (s : Session)
    (lp fn rb sp : String) (permissions_int : Nat) (e : String)
    (h1 : env s.history (FTPCmd.cwd (posixJoin (posixJoin "/" rb) sp)) = Outcome.exn e) :
    LogEntry.error ("FTP Error: '" ++ e ++ "'")
      ∈ (upload_file env s lp fn rb sp permissions_int).logs := by
  unfold upload_file
  simp only [issue]
  rw [h1]
  dsimp only
  rw [returnToRoot_logs]
  simp

theorem upload_file_stor_exn_logged (env : FTPEnv) (s : Session)
    (lp fn rb sp : String) (permissions_int : Nat) (r1 e : String)
    (h1 : env s.history (FTPCmd.cwd (posixJoin (posixJoin "/" rb) sp)) = Outcome.ok r1)
    (h2 : env (s.history ++ [FTPCmd.cwd (posixJoin (posixJoin "/" rb) sp)])
            (FTPCmd.stor fn) = Outcome.exn e) :
    LogEntry.error ("FTP Error: '" ++ e ++ "'")
      ∈ (upload_file env s lp fn rb sp permissions_int).logs := by
  unfold upload_file
  simp only [issue]
  rw [h1]
  dsimp only
  rw [h2]
  dsimp only
  rw [returnToRoot_logs]
  simp

/-! ### Helper lemmas: the manifest loop and the run -/

theorem runFiles_count (env : FTPEnv) (sp rb : String) :
    ∀ (todo : List Candidate) (st : RunState),
      (runFiles env sp rb st todo).aborted = none →
      (runFiles env sp rb st todo).count = st.count + todo.length := by
  intro todo
  induction todo with
  | nil => intro st _; simp [runFiles]
  | cons c rest ih =>
      intro st h
      simp only [runFiles] at h ⊢
      cases hr : (upload_file env st.session (candPath sp c)
          (basename (candPath sp c)) rb c.2.1 c.2.2).raised with
      | some e => rw [hr] at h; simp at h
      | none =>
          rw [hr] at h
          dsimp only at h ⊢
          rw [ih _ h]
          simp
          omega

theorem runFiles_attempted_none (env : FTPEnv) (sp rb : String) :
    ∀ (todo : List Candidate) (st : RunState),
      (runFiles env sp rb st todo).aborted = none →
      (runFiles env sp rb st todo).attemptedPaths
        = st.attemptedPaths ++ todo.map (candPath sp) := by
  intro todo
  induction todo with
  | nil => intro st _; simp [runFiles]
  | cons c rest ih =>
      intro st h
      simp only [runFiles] at h ⊢
      cases hr : (upload_file env st.session (candPath sp c)
          (basename (candPath sp c)) rb c.2.1 c.2.2).raised with
      | some e => rw [hr] at h; simp at h
      | none =>
          rw [hr] at h
          dsimp only at h ⊢
          rw [ih _ h]
          simp

theorem runFiles_attempted_mem (env : FTPEnv) (sp rb : String) :
    ∀ (todo : List Candidate) (st : RunState) (p : String),
      p ∈ (runFiles env sp rb st todo).attemptedPaths →
      p ∈ st.attemptedPaths ∨ ∃ c ∈ todo, p = candPath sp c := by
  intro todo
  induction todo with
  | nil => intro st p h; exact Or.inl (by simpa [runFiles] using h)
  | cons c rest ih =>
      intro st p h
      simp only [runFiles] at h
      cases hr : (upload_file env st.session (candPath sp c)
          (basename (candPath sp c)) rb c.2.1 c.2.2).raised with
      | some e =>
          rw [hr] at h
          dsimp only at h
          rcases List.mem_append.mp h with h | h
          · exact Or.inl h
          · exact Or.inr ⟨c, by simp, by simpa using h⟩
      | none =>
          rw [hr] at h
          dsimp only at h
          rcases ih _ p h with h | ⟨c', hc', hp⟩
          · rcases List.mem_append.mp h with h | h
            · exact Or.inl h
            · exact Or.inr ⟨c, by simp, by simpa using h⟩
          · exact Or.inr ⟨c', by simp [hc'], hp⟩

theorem runFiles_stor_mem (env : FTPEnv) (sp rb : String) :
    ∀ (todo : List Candidate) (st : RunState) (fn' : String),
      FTPCmd.stor fn' ∈ (runFiles env sp rb st todo).session.history →
      FTPCmd.stor fn' ∈ st.session.history
        ∨ ∃ c ∈ todo, fn' = basename (candPath sp c) := by
  intro todo
  induction todo with
  | nil => intro st fn' h; exact Or.inl (by simpa [runFiles] using h)
  | cons c rest ih =>
      intro st fn' h
      simp only [runFiles] at h
      cases hr : (upload_file env st.session (candPath sp c)
          (basename (candPath sp c)) rb c.2.1 c.2.2).raised with
      | some e =>
          rw [hr] at h
          dsimp only at h
          rcases upload_file_stor_mem env st.session (candPath sp c)
              (basename (candPath sp c)) rb c.2.1 c.2.2 fn' h with h | h
          · exact Or.inl h
          · exact Or.inr ⟨c, by simp, h⟩
      | none =>
          rw [hr] at h
          dsimp only at h
          rcases ih _ fn' h with h | ⟨c', hc', hp⟩
          · rcases upload_file_stor_mem env st.session (candPath sp c)
                (basename (candPath sp c)) rb c.2.1 c.2.2 fn' h with h | h
            · exact Or.inl h
            · exact Or.inr ⟨c, by simp, h⟩
          · exact Or.inr ⟨c', by simp [hc'], hp⟩

theorem mem_candidatesOf (w : World) :
    ∀ (es : List (String × String × Nat)) (c : Candidate),
      c ∈ candidatesOf w es ↔
        ∃ e ∈ es, c.1 ∈ w.files ∧ c.1.subdir = e.1 ∧
          globMatch e.2.1 c.1.name = true ∧ c = (c.1, e.1, e.2.2) := by
  intro es
  induction es with
  | nil => intro c; simp [candidatesOf]
  | cons e es ih =>
      intro c
      simp only [candidatesOf, List.mem_append, List.mem_map, ih]
      constructor
      · rintro (⟨f, hf, rfl⟩ | ⟨e', he', hm⟩)
        · refine ⟨e, by simp, ?_⟩
          rcases List.mem_filter.mp hf with ⟨hfw, hcond⟩
          simp only [Bool.and_eq_true, beq_iff_eq] at hcond
          exact ⟨hfw, hcond.1, hcond.2, rfl⟩
        · exact ⟨e', by simp [he'], hm⟩
      · rintro ⟨e', he', hfw, hsub, hglob, hc⟩
        rcases List.mem_cons.mp he' with rfl | he'
        · refine Or.inl ⟨c.1, ?_, hc.symm⟩
          exact List.mem_filter.mpr ⟨hfw, by simp [hsub, hglob]⟩
        · exact Or.inr ⟨e', he', hfw, hsub, hglob, hc⟩

theorem mem_attemptList (w : World) (fu : Bool) (c : Candidate) :
    c ∈ attemptList w fu ↔
      (c ∈ candidateList w ∧ qualifies fu (cutoffTime w) c.1 = true) :=
  List.mem_filter

theorem qualifies_iff (fu : Bool) (cut : Int) (f : LocalFile) :
    qualifies fu cut f = true ↔ (fu = true ∨ cut < f.mtime) := by
  simp [qualifies]

theorem finishRun_raised (w : World) (t : Int) (st : RunState) :
    (finishRun w t st).raised = st.aborted := by
  unfold finishRun
  cases st.aborted with
  | none => by_cases hc : 0 < st.count <;> simp [hc]
  | some e => rfl

theorem finishRun_count (w : World) (t : Int) (st : RunState) :
    (finishRun w t st).count = st.count := by
  unfold finishRun
  cases st.aborted with
  | none => by_cases hc : 0 < st.count <;> simp [hc]
  | some e => rfl

theorem finishRun_trace (w : World) (t : Int) (st : RunState) :
    (finishRun w t st).trace = st.session.history := by
  unfold finishRun
  cases st.aborted with
  | none => by_cases hc : 0 < st.count <;> simp [hc]
  | some e => rfl

theorem finishRun_attempted (w : World) (t : Int) (st : RunState) :
    (finishRun w t st).attemptedPaths = st.attemptedPaths := by
  unfold finishRun
  cases st.aborted with
  | none => by_cases hc : 0 < st.count <;> simp [hc]
  | some e => rfl

theorem finishRun_world (w : World) (t : Int) (st : RunState) :
    (finishRun w t st).world =
      if st.aborted = none ∧ 0 < st.count
      then { w with markerExists := true, markerMtime := t }
      else w := by
  unfold finishRun
  cases hab : st.aborted with
  | none =>
      dsimp only
      by_cases hc : 0 < st.count
      · rw [if_pos hc, if_pos ⟨rfl, hc⟩]
      · rw [if_neg hc, if_neg (by simp [hc])]
  | some e => simp

theorem check_cases (env : FTPEnv) (w : World) (endTime : Int)
    (sp rb : String) (fu : Bool) :
    (∃ e, env [] FTPCmd.connect = Outcome.exn e ∧
       check_and_upload_files env w endTime sp rb fu
         = ⟨w, 0, [FTPCmd.connect], [], [], some e⟩) ∨
    (∃ r, env [] FTPCmd.connect = Outcome.ok r ∧
       check_and_upload_files env w endTime sp rb fu
         = finishRun w endTime
             (runFiles env sp rb ⟨⟨[FTPCmd.connect], none⟩, 0, [], [], none⟩
               (attemptList w fu))) := by
  unfold check_and_upload_files
  simp only [issue]
  cases hc : env [] FTPCmd.connect with
  | ok r => exact Or.inr ⟨r, rfl, rfl⟩
  | exn e => exact Or.inl ⟨e, rfl, rfl⟩

theorem check_count (env : FTPEnv) (w : World) (endTime : Int)
    (sp rb : String) (fu : Bool)
    (h : (check_and_upload_files env w endTime sp rb fu).raised = none) :
    (check_and_upload_files env w endTime sp rb fu).count
      = (attemptList w fu).length := by
  rcases check_cases env w endTime sp rb fu with ⟨e, hc, heq⟩ | ⟨r, hc, heq⟩
  · rw [heq] at h; simp at h
  · rw [heq] at h ⊢
    rw [finishRun_raised] at h
    rw [finishRun_count, runFiles_count env sp rb _ _ h]
    simp

theorem check_world_spec (env : FTPEnv) (w : World) (endTime : Int)
    (sp rb : String) (fu : Bool) :
    (check_and_upload_files env w endTime sp rb fu).world = w ∨
    (0 < (check_and_upload_files env w endTime sp rb fu).count ∧
     (check_and_upload_files env w endTime sp rb fu).raised = none ∧
     (check_and_upload_files env w endTime sp rb fu).world
       = { w with markerExists := true, markerMtime := endTime }) := by
  rcases check_cases env w endTime sp rb fu with ⟨e, hc, heq⟩ | ⟨r, hc, heq⟩
  · rw [heq]; exact Or.inl rfl
  · rw [heq]
    by_cases hcond : (runFiles env sp rb ⟨⟨[FTPCmd.connect], none⟩, 0, [], [], none⟩
        (attemptList w fu)).aborted = none ∧
        0 < (runFiles env sp rb ⟨⟨[FTPCmd.connect], none⟩, 0, [], [], none⟩
        (attemptList w fu)).count
    · right
      refine ⟨?_, ?_, ?_⟩
      · rw [finishRun_count]; exact hcond.2
      · rw [finishRun_raised]; exact hcond.1
      · rw [finishRun_world, if_pos hcond]
    · left
      rw [finishRun_world, if_neg hcond]

theorem check_world_touched (env : FTPEnv) (w : World) (endTime : Int)
    (sp rb : String) (fu : Bool)
    (h1 : (check_and_upload_files env w endTime sp rb fu).raised = none)
    (h2 : 0 < (check_and_upload_files env w endTime sp rb fu).count) :
    (check_and_upload_files env w endTime sp rb fu).world
      = { w with markerExists := true, markerMtime := endTime } := by
  rcases check_cases env w endTime sp rb fu with ⟨e, hc, heq⟩ | ⟨r, hc, heq⟩
  · rw [heq] at h1; simp at h1
  · rw [heq] at h1 h2 ⊢
    rw [finishRun_raised] at h1
    rw [finishRun_count] at h2
    rw [finishRun_world, if_pos ⟨h1, h2⟩]

theorem check_attempted_sound (env : FTPEnv) (w : World) (endTime : Int)
    (sp rb : String) (fu : Bool) (p : String)
    (h : p ∈ (check_and_upload_files env w endTime sp rb fu).attemptedPaths) :
    ∃ c ∈ attemptList w fu, p = candPath sp c := by
  rcases check_cases env w endTime sp rb fu with ⟨e, hc, heq⟩ | ⟨r, hc, heq⟩
  · rw [heq] at h; simp at h
  · rw [heq] at h
    rw [finishRun_attempted] at h
    rcases runFiles_attempted_mem env sp rb _ _ p h with h | h
    · simp at h
    · exact h

theorem check_attempted_complete (env : FTPEnv) (w : World) (endTime : Int)
    (sp rb : String) (fu : Bool) (c : Candidate)
    (h : (check_and_upload_files env w endTime sp rb fu).raised = none)
    (hmem : c ∈ attemptList w fu) :
    candPath sp c ∈ (check_and_upload_files env w endTime sp rb fu).attemptedPaths := by
  rcases check_cases env w endTime sp rb fu with ⟨e, hc, heq⟩ | ⟨r, hc, heq⟩
  · rw [heq] at h; simp at h
  · rw [heq] at h ⊢
    rw [finishRun_raised] at h
    rw [finishRun_attempted, runFiles_attempted_none env sp rb _ _ h]
    simp only [List.nil_append, List.mem_map]
    exact ⟨c, hmem, rfl⟩

theorem check_stor_sound (env : FTPEnv) (w : World) (endTime : Int)
    (sp rb : String) (fu : Bool) (fn : String)
    (h : FTPCmd.stor fn ∈ (check_and_upload_files env w endTime sp rb fu).trace) :
    ∃ c ∈ attemptList w fu, fn = basename (candPath sp c) := by
  rcases check_cases env w endTime sp rb fu with ⟨e, hc, heq⟩ | ⟨r, hc, heq⟩
  · rw [heq] at h; simp at h
  · rw [heq] at h
    rw [finishRun_trace] at h
    rcases runFiles_stor_mem env sp rb _ _ fn h with h | h
    · simp at h
    · exact h

theorem check_trace_of_empty (env : FTPEnv) (w : World) (endTime : Int)
    (sp rb : String) (fu : Bool)
    (hA : attemptList w fu = [])
    (h : (check_and_upload_files env w endTime sp rb fu).raised = none) :
    (check_and_upload_files env w endTime sp rb fu).trace = [FTPCmd.connect] := by
  rcases check_cases env w endTime sp rb fu with ⟨e, hc, heq⟩ | ⟨r, hc, heq⟩
  · rw [heq] at h; simp at h
  · rw [heq, hA]
    rw [finishRun_trace]
    rfl

theorem check_attempted_all (env : FTPEnv) (w : World) (endTime : Int)
    (sp rb : String) (fu : Bool)
    (h : (check_and_upload_files env w endTime sp rb fu).raised = none) :
    (check_and_upload_files env w endTime sp rb fu).attemptedPaths
      = (attemptList w fu).map (candPath sp) := by
  rcases check_cases env w endTime sp rb fu with ⟨e, hc, heq⟩ | ⟨r, hc, heq⟩
  · rw [heq] at h; simp at h
  · rw [heq] at h ⊢
    rw [finishRun_raised] at h
    rw [finishRun_attempted, runFiles_attempted_none env sp rb _ _ h]
    rfl

/-! ### The claims -/

/-- C1, counterexample: the claim says the final reported upload count
excludes a qualifying file whose transfer failed.  In a run whose only
qualifying candidate `a.html` is rejected by the store command (`550`
response, `FAILURE` logged, no `SITE CHMOD` issued, so zero transfers
succeeded), the reported count is `1`, not `0`: the counter counts
attempted candidates, not successful transfers. -/
theorem C1_counterexample :
    (check_and_upload_files envC1ce wC1ce 99 "out" "" false).count = 1 ∧
    siteCount (check_and_upload_files envC1ce wC1ce 99 "out" "" false).trace = 0 ∧
    LogEntry.error "FAILURE uploading 'a.html'"
      ∈ (check_and_upload_files envC1ce wC1ce 99 "out" "" false).logs ∧
    (check_and_upload_files envC1ce wC1ce 99 "out" "" false).raised = none :=
  ⟨by decide, by decide, by decide, by decide⟩

/-- C1 (amended): in every run that completes (no uncaught error), the final
reported upload count equals the number of qualifying candidates of the
manifest walk — it includes every attempted file whether its transfer
succeeded or failed; in particular a caught transfer failure for file A does
not prevent a later qualifying file B from being attempted and counted. -/
theorem C1_amended_count (env : FTPEnv) (w : World) (endTime : Int)
    (sp rb : String) (fu : Bool)
    (h : (check_and_upload_files env w endTime sp rb fu).raised = none) :
    (check_and_upload_files env w endTime sp rb fu).count
      = (attemptList w fu).length ∧
    (check_and_upload_files env w endTime sp rb fu).attemptedPaths
      = (attemptList w fu).map (candPath sp) :=
  ⟨check_count env w endTime sp rb fu h,
   check_attempted_all env w endTime sp rb fu h⟩

/-- C1, witness: a completed run in which `fail.html` is rejected (`550`)
and `ok.html` succeeds: both are attempted, the count is 2 (the failed file
included), and exactly one transfer succeeded. -/
theorem C1_amended_witness :
    (check_and_upload_files envC1w wC1w 42 "o" "" false).raised = none ∧
    ((check_and_upload_files envC1w wC1w 42 "o" "" false).count
        = (attemptList wC1w false).length ∧
     (check_and_upload_files envC1w wC1w 42 "o" "" false).attemptedPaths
        = (attemptList wC1w false).map (candPath "o")) ∧
    (attemptList wC1w false).length = 2 ∧
    siteCount (check_and_upload_files envC1w wC1w 42 "o" "" false).trace = 1 :=
  ⟨by decide, C1_amended_count envC1w wC1w 42 "o" "" false (by decide),
   by decide, by decide⟩

/-- C3, counterexample: the claim says the marker is unchanged whenever zero
files are uploaded.  In a completed run whose only qualifying candidate is
rejected by the store (`550`, zero successful transfers, `FAILURE` logged),
the counter is still positive, so the marker's mtime changes from 100 to the
run's end time 777. -/
theorem C3_counterexample :
    siteCount (check_and_upload_files envC3ce wC3ce 777 "src3" "" false).trace = 0 ∧
    LogEntry.error "FAILURE uploading 't3.html'"
      ∈ (check_and_upload_files envC3ce wC3ce 777 "src3" "" false).logs ∧
    (check_and_upload_files envC3ce wC3ce 777 "src3" "" false).raised = none ∧
    wC3ce.markerMtime = 100 ∧
    (check_and_upload_files envC3ce wC3ce 777 "src3" "" false).world.markerMtime = 777 :=
  ⟨by decide, by decide, by decide, by decide, by decide⟩

/-- C3 (amended): the marker is only ever modified once, at the end of a
completed run whose upload counter (the number of attempted candidates) is
positive; every other run — zero attempts, or a walk aborted by an uncaught
error — leaves the local state (in particular the marker's mtime) unchanged. -/
theorem C3_amended_marker (env : FTPEnv) (w : World) (endTime : Int)
    (sp rb : String) (fu : Bool) :
    (check_and_upload_files env w endTime sp rb fu).world = w ∨
    (0 < (check_and_upload_files env w endTime sp rb fu).count ∧
     (check_and_upload_files env w endTime sp rb fu).raised = none ∧
     (check_and_upload_files env w endTime sp rb fu).world
       = { w with markerExists := true, markerMtime := endTime }) :=
  check_world_spec env w endTime sp rb fu

/-- C4: in every run that completes its manifest walk with at least one
successful transfer (a `SITE CHMOD` is issued exactly once per store whose
response starts with `226`), the marker exists afterwards and its mtime is
the run-end time, hence at least the run-start time whenever the clock is
monotone. -/
theorem C4_marker_updated (env : FTPEnv) (w : World) (startTime endTime : Int)
    (sp rb : String) (fu : Bool)
    (hcomp : (check_and_upload_files env w endTime sp rb fu).raised = none)
    (hup : 0 < siteCount (check_and_upload_files env w endTime sp rb fu).trace)
    (hclock : startTime ≤ endTime) :
    (check_and_upload_files env w endTime sp rb fu).world.markerExists = true ∧
    (check_and_upload_files env w endTime sp rb fu).world.markerMtime = endTime ∧
    startTime ≤ (check_and_upload_files env w endTime sp rb fu).world.markerMtime := by
  have hcount : 0 < (check_and_upload_files env w endTime sp rb fu).count := by
    by_contra hcn
    have h0 : (check_and_upload_files env w endTime sp rb fu).count = 0 :=
      Nat.le_zero.mp (Nat.not_lt.mp hcn)
    rw [check_count env w endTime sp rb fu hcomp] at h0
    have hA : attemptList w fu = [] := List.length_eq_zero.mp h0
    have htr := check_trace_of_empty env w endTime sp rb fu hA hcomp
    rw [htr] at hup
    simp [siteCount, isSiteCmd] at hup
  have hw := check_world_touched env w endTime sp rb fu hcomp hcount
  rw [hw]
  exact ⟨rfl, rfl, hclock⟩

/-- C4, witness: a fully successful run over one qualifying candidate with
start time 7 and end time 42: the marker ends up existing with mtime 42. -/
theorem C4_witness :
    (check_and_upload_files envOk wC4w 42 "w4" "" false).raised = none ∧
    0 < siteCount (check_and_upload_files envOk wC4w 42 "w4" "" false).trace ∧
    ((7 : Int) ≤ 42) ∧
    ((check_and_upload_files envOk wC4w 42 "w4" "" false).world.markerExists = true ∧
     (check_and_upload_files envOk wC4w 42 "w4" "" false).world.markerMtime = 42 ∧
     (7 : Int) ≤ (check_and_upload_files envOk wC4w 42 "w4" "" false).world.markerMtime) :=
  ⟨by decide, by decide, by decide,
   C4_marker_updated envOk wC4w 7 42 "w4" "" false (by decide) (by decide) (by decide)⟩

/-- C5: the per-candidate gate.  Soundness: every attempted local path
belongs to a file matching some manifest entry and satisfying
`force_update or mtime > cutoff`.  Completeness: in a completed run, every
matching file satisfying the gate is attempted. -/
theorem C5_selection (env : FTPEnv) (w : World) (endTime : Int)
    (sp rb : String) (fu : Bool) :
    (∀ p ∈ (check_and_upload_files env w endTime sp rb fu).attemptedPaths,
        ∃ f e, f ∈ w.files ∧ e ∈ SUB_PATHS ∧ f.subdir = e.1 ∧
          globMatch e.2.1 f.name = true ∧
          (fu = true ∨ cutoffTime w < f.mtime) ∧
          p = posixJoin (posixJoin sp e.1) f.name) ∧
    ((check_and_upload_files env w endTime sp rb fu).raised = none →
      ∀ f e, f ∈ w.files → e ∈ SUB_PATHS → f.subdir = e.1 →
        globMatch e.2.1 f.name = true → (fu = true ∨ cutoffTime w < f.mtime) →
        posixJoin (posixJoin sp e.1) f.name
          ∈ (check_and_upload_files env w endTime sp rb fu).attemptedPaths) := by
  constructor
  · intro p hp
    obtain ⟨⟨f1, s1, m1⟩, hcmem, rfl⟩ :=
      check_attempted_sound env w endTime sp rb fu p hp
    rcases (mem_attemptList w fu _).mp hcmem with ⟨hcand, hqual⟩
    rcases (mem_candidatesOf w SUB_PATHS _).mp hcand with ⟨e, he, hfw, hsub, hglob, hc⟩
    obtain ⟨hs1, hm1⟩ : s1 = e.1 ∧ m1 = e.2.2 := by simpa using hc
    subst hs1
    exact ⟨f1, e, hfw, he, hsub, hglob,
      (qualifies_iff fu (cutoffTime w) f1).mp hqual, by simp [candPath]⟩
  · intro hr f e hfw he hsub hglob hq
    have hcand : (f, e.1, e.2.2) ∈ candidateList w :=
      (mem_candidatesOf w SUB_PATHS (f, e.1, e.2.2)).mpr ⟨e, he, hfw, hsub, hglob, rfl⟩
    have hmem : (f, e.1, e.2.2) ∈ attemptList w fu :=
      (mem_attemptList w fu _).mpr
        ⟨hcand, (qualifies_iff fu (cutoffTime w) f).mpr hq⟩
    have := check_attempted_complete env w endTime sp rb fu (f, e.1, e.2.2) hr hmem
    simpa [candPath] using this

/-- C5, witness: with the marker at mtime 3 and `force_update = false`, the
candidate `index5.html` (mtime 5 > 3) is attempted in a completed run. -/
theorem C5_witness :
    (check_and_upload_files envOk wC5w 50 "site5" "" false).raised = none ∧
    "site5/index5.html"
      ∈ (check_and_upload_files envOk wC5w 50 "site5" "" false).attemptedPaths := by
  refine ⟨by decide, ?_⟩
  have h := (C5_selection envOk wC5w 50 "site5" "" false).2 (by decide)
    ⟨"", "index5.html", 5⟩ ("", "*.html", 664) (by decide) (by decide) (by decide)
    (by decide) (Or.inr (by decide))
  have hpath : posixJoin (posixJoin "site5" "") "index5.html" = "site5/index5.html" := by
    decide
  rwa [hpath] at h

/-- C6, counterexample: the claim says that with no marker every matching
candidate qualifies.  With the marker absent the cutoff is the integer 0,
and a matching candidate whose mtime is exactly 0 (the epoch) fails the
strict comparison `mtime > 0`: the run completes with zero attempts. -/
theorem C6_counterexample :
    wC6ce.markerExists = false ∧
    (candidateList wC6ce).length = 1 ∧
    (check_and_upload_files envOk wC6ce 7 "s6" "" false).raised = none ∧
    (check_and_upload_files envOk wC6ce 7 "s6" "" false).count = 0 ∧
    (check_and_upload_files envOk wC6ce 7 "s6" "" false).attemptedPaths = [] :=
  ⟨by decide, by decide, by decide, by decide, by decide⟩

/-- C6 (amended): when the marker does not exist the cutoff is treated as
epoch zero, so with `force_update = false` every matching candidate whose
mtime is strictly greater than 0 qualifies and is attempted in a completed
run. -/
theorem C6_amended_cutoff (env : FTPEnv) (w : World) (endTime : Int)
    (sp rb : String) (f : LocalFile) (e : String × String × Nat)
    (hm : w.markerExists = false)
    (hr : (check_and_upload_files env w endTime sp rb false).raised = none)
    (hfw : f ∈ w.files) (he : e ∈ SUB_PATHS) (hsub : f.subdir = e.1)
    (hglob : globMatch e.2.1 f.name = true) (hmt : 0 < f.mtime) :
    cutoffTime w = 0 ∧
    posixJoin (posixJoin sp e.1) f.name
      ∈ (check_and_upload_files env w endTime sp rb false).attemptedPaths := by
  have hcut : cutoffTime w = 0 := by simp [cutoffTime, hm]
  refine ⟨hcut, ?_⟩
  have hcand : (f, e.1, e.2.2) ∈ candidateList w :=
    (mem_candidatesOf w SUB_PATHS (f, e.1, e.2.2)).mpr ⟨e, he, hfw, hsub, hglob, rfl⟩
  have hmem : (f, e.1, e.2.2) ∈ attemptList w false :=
    (mem_attemptList w false _).mpr
      ⟨hcand, (qualifies_iff false (cutoffTime w) f).mpr
        (Or.inr (by rw [hcut]; exact hmt))⟩
  have := check_attempted_complete env w endTime sp rb false (f, e.1, e.2.2) hr hmem
  simpa [candPath] using this

/-- C6, witness: with no marker, the candidate `all6.xml` (mtime 12 > 0) is
attempted even with `force_update = false`. -/
theorem C6_witness :
    wC6w.markerExists = false ∧
    (check_and_upload_files envOk wC6w 9 "s6w" "" false).raised = none ∧
    (cutoffTime wC6w = 0 ∧
      posixJoin (posixJoin "s6w" "feeds") "all6.xml"
        ∈ (check_and_upload_files envOk wC6w 9 "s6w" "" false).attemptedPaths) :=
  ⟨by decide, by decide,
   C6_amended_cutoff envOk wC6w 9 "s6w" "" ⟨"feeds", "all6.xml", 12⟩ ("feeds", "*.xml", 664)
     (by decide) (by decide) (by decide) (by decide) (by decide) (by decide) (by decide)⟩

/-- C2, counterexample: the claim says a caught per-file transfer error
never aborts the run and the loop always continues.  When the connection
drops during the store of `a2.html`, the error is caught and logged, but the
unguarded restore `cwd` to `/` that follows also raises; that exception
propagates, the run aborts, and the later qualifying candidate `b2.html` is
never attempted. -/
theorem C2_counterexample :
    LogEntry.error "FTP Error: 'conn reset'"
      ∈ (check_and_upload_files envC2ce wC2ce 99 "out2" "" false).logs ∧
    (check_and_upload_files envC2ce wC2ce 99 "out2" "" false).raised = some "conn lost" ∧
    FTPCmd.stor "b2.html" ∉ (check_and_upload_files envC2ce wC2ce 99 "out2" "" false).trace ∧
    "out2/pages/b2.html"
      ∉ (check_and_upload_files envC2ce wC2ce 99 "out2" "" false).attemptedPaths ∧
    "out2/pages/a2.html"
      ∈ (check_and_upload_files envC2ce wC2ce 99 "out2" "" false).attemptedPaths :=
  ⟨by decide, by decide, by decide, by decide, by decide⟩

/-- C2 (amended): every error raised during the guarded upload steps
(directory change into the target directory, store) is caught and logged
inside the per-file operation; the only error `upload_file` can propagate
comes from the final restore of the working directory, which is unguarded —
when it raises, the run aborts; otherwise the operation returns normally and
the manifest loop continues. -/
theorem C2_amended_caught (env : FTPEnv) (s : Session)
    (lp fn rb sp : String) (permissions_int : Nat) :
    (∀ e, env s.history (FTPCmd.cwd (posixJoin (posixJoin "/" rb) sp)) = Outcome.exn e →
       LogEntry.error ("FTP Error: '" ++ e ++ "'")
         ∈ (upload_file env s lp fn rb sp permissions_int).logs) ∧
    (∀ e r1, env s.history (FTPCmd.cwd (posixJoin (posixJoin "/" rb) sp)) = Outcome.ok r1 →
       env (s.history ++ [FTPCmd.cwd (posixJoin (posixJoin "/" rb) sp)]) (FTPCmd.stor fn)
         = Outcome.exn e →
       LogEntry.error ("FTP Error: '" ++ e ++ "'")
         ∈ (upload_file env s lp fn rb sp permissions_int).logs) ∧
    (∀ e, (upload_file env s lp fn rb sp permissions_int).raised = some e →
       ∃ h', env h' (FTPCmd.cwd (posixJoin "/" rb)) = Outcome.exn e ∧
         (upload_file env s lp fn rb sp permissions_int).session.history
           = h' ++ [FTPCmd.cwd (posixJoin "/" rb)]) :=
  ⟨fun e h1 => upload_file_cwd_exn_logged env s lp fn rb sp permissions_int e h1,
   fun e r1 h1 h2 => upload_file_stor_exn_logged env s lp fn rb sp permissions_int r1 e h1 h2,
   fun e h => upload_file_raised_some env s lp fn rb sp permissions_int e h⟩

/-- C2, witness: a store that raises `boom` after a successful directory
change is caught and logged with the underlying error text. -/
theorem C2_amended_witness :
    envC2w sC2w.history (FTPCmd.cwd (posixJoin (posixJoin "/" "") "pages"))
      = Outcome.ok "250 OK" ∧
    envC2w (sC2w.history ++ [FTPCmd.cwd (posixJoin (posixJoin "/" "") "pages")])
      (FTPCmd.stor "w2.html") = Outcome.exn "boom" ∧
    LogEntry.error "FTP Error: 'boom'"
      ∈ (upload_file envC2w sC2w "out/pages/w2.html" "w2.html" "" "pages" 664).logs :=
  ⟨by decide, by decide,
   (C2_amended_caught envC2w sC2w "out/pages/w2.html" "w2.html" "" "pages" 664).2.1
     "boom" "250 OK" (by decide) (by decide)⟩

/-- C7: the store-response gate.  If the store succeeds at protocol level
but its response does not start with `226`, the file is treated as a
failure: no `SITE CHMOD` is issued and the failure is logged with the
filename and the response.  If the response starts with `226`, exactly one
`SITE CHMOD` is issued; its response — success or raised error — is only
logged (debug level for a response, the caught-error log otherwise) and
never changes the per-file success determination (`stored` stays true), and
a successful restore still returns the operation normally so the counter
increment is unaffected. -/
theorem C7_store_gate (env : FTPEnv) (s : Session)
    (lp fn rb sp : String) (permissions_int : Nat) (r1 res : String)
    (h1 : env s.history (FTPCmd.cwd (posixJoin (posixJoin "/" rb) sp)) = Outcome.ok r1)
    (h2 : env (s.history ++ [FTPCmd.cwd (posixJoin (posixJoin "/" rb) sp)]) (FTPCmd.stor fn)
            = Outcome.ok res) :
    (strStartsWith res "226" = false →
       (upload_file env s lp fn rb sp permissions_int).stored = false ∧
       (upload_file env s lp fn rb sp permissions_int).session.history.filter isSiteCmd
         = s.history.filter isSiteCmd ∧
       LogEntry.error ("FAILURE uploading '" ++ fn ++ "'")
         ∈ (upload_file env s lp fn rb sp permissions_int).logs ∧
       LogEntry.error res ∈ (upload_file env s lp fn rb sp permissions_int).logs) ∧
    (strStartsWith res "226" = true →
       (upload_file env s lp fn rb sp permissions_int).stored = true ∧
       (upload_file env s lp fn rb sp permissions_int).session.history.filter isSiteCmd
         = s.history.filter isSiteCmd
           ++ [FTPCmd.site ("SITE CHMOD " ++ toString permissions_int ++ " " ++ fn)] ∧
       (∀ r2, env ((s.history ++ [FTPCmd.cwd (posixJoin (posixJoin "/" rb) sp)])
                 ++ [FTPCmd.stor fn])
               (FTPCmd.site ("SITE CHMOD " ++ toString permissions_int ++ " " ++ fn))
               = Outcome.ok r2 →
          LogEntry.debug ("Permissions change: '" ++ r2 ++ "'")
            ∈ (upload_file env s lp fn rb sp permissions_int).logs) ∧
       (∀ e, env ((s.history ++ [FTPCmd.cwd (posixJoin (posixJoin "/" rb) sp)])
                 ++ [FTPCmd.stor fn])
               (FTPCmd.site ("SITE CHMOD " ++ toString permissions_int ++ " " ++ fn))
               = Outcome.exn e →
          LogEntry.error ("FTP Error: '" ++ e ++ "'")
            ∈ (upload_file env s lp fn rb sp permissions_int).logs) ∧
       (∀ rr, env (((s.history ++ [FTPCmd.cwd (posixJoin (posixJoin "/" rb) sp)])
                 ++ [FTPCmd.stor fn])
                 ++ [FTPCmd.site ("SITE CHMOD " ++ toString permissions_int ++ " " ++ fn)])
               (FTPCmd.cwd (posixJoin "/" rb)) = Outcome.ok rr →
          (upload_file env s lp fn rb sp permissions_int).raised = none)) := by
  constructor
  · intro hres
    unfold upload_file
    simp only [issue]
    rw [h1]
    dsimp only
    rw [h2]
    dsimp only
    rw [if_pos hres]
    refine ⟨returnToRoot_stored _ _ _ _ _, ?_, ?_, ?_⟩
    · rw [returnToRoot_history]
      simp [List.filter_append, isSiteCmd]
    · rw [returnToRoot_logs]; simp
    · rw [returnToRoot_logs]; simp
  · intro hres
    unfold upload_file
    simp only [issue]
    rw [h1]
    dsimp only
    rw [h2]
    dsimp only
    rw [if_neg (by simp [hres])]
    cases h3 : env ((s.history ++ [FTPCmd.cwd (posixJoin (posixJoin "/" rb) sp)])
        ++ [FTPCmd.stor fn])
        (FTPCmd.site ("SITE CHMOD " ++ toString permissions_int ++ " " ++ fn)) with
    | ok r2 =>
        dsimp only
        refine ⟨returnToRoot_stored _ _ _ _ _, ?_, ?_, ?_, ?_⟩
        · rw [returnToRoot_history]
          simp [List.filter_append, isSiteCmd]
        · intro r2' hr2
          injection hr2 with hv
          subst hv
          rw [returnToRoot_logs]; simp
        · intro e3 he3
          exact absurd he3 (by simp)
        · intro rr hrr
          exact returnToRoot_raised_ok env _ rb _ _ rr hrr
    | exn e3 =>
        dsimp only
        refine ⟨returnToRoot_stored _ _ _ _ _, ?_, ?_, ?_, ?_⟩
        · rw [returnToRoot_history]
          simp [List.filter_append, isSiteCmd]
        · intro r2' hr2
          exact absurd hr2 (by simp)
        · intro e3' he3
          injection he3 with hv
          subst hv
          rw [returnToRoot_logs]; simp
        · intro rr hrr
          exact returnToRoot_raised_ok env _ rb _ _ rr hrr

/-- C7, witness: a `226` store followed by a `SITE CHMOD` that raises: the
site command is issued, the raised permission-change error is only logged,
and the per-file success determination is unchanged. -/
theorem C7_witness :
    envC7w [] (FTPCmd.cwd (posixJoin (posixJoin "/" "") "pages")) = Outcome.ok "250 OK" ∧
    envC7w ([] ++ [FTPCmd.cwd (posixJoin (posixJoin "/" "") "pages")]) (FTPCmd.stor "f7.html")
      = Outcome.ok "226 done" ∧
    strStartsWith "226 done" "226" = true ∧
    ((upload_file envC7w ⟨[], none⟩ "o7/pages/f7.html" "f7.html" "" "pages" 664).stored = true ∧
     LogEntry.error "FTP Error: '550 chmod refused'"
       ∈ (upload_file envC7w ⟨[], none⟩ "o7/pages/f7.html" "f7.html" "" "pages" 664).logs) := by
  refine ⟨by decide, by decide, by decide, ?_, ?_⟩
  · exact ((C7_store_gate envC7w ⟨[], none⟩ "o7/pages/f7.html" "f7.html" "" "pages" 664
      "250 OK" "226 done" (by decide) (by decide)).2 (by decide)).1
  · exact (((C7_store_gate envC7w ⟨[], none⟩ "o7/pages/f7.html" "f7.html" "" "pages" 664
      "250 OK" "226 done" (by decide) (by decide)).2 (by decide)).2.2.2.1
      "550 chmod refused" (by decide))

/-- C8: on every invocation, the last command `upload_file` issues is the
directory change back to `os.path.join("/", remote_base)`; whenever the
operation returns normally the session's working directory is that path; and
for a `remote_base` not starting with `/` that path is literally
`"/" ++ remote_base`. -/
theorem C8_restore_dir (env : FTPEnv) (s : Session)
    (lp fn rb sp : String) (permissions_int : Nat) :
    (upload_file env s lp fn rb sp permissions_int).session.history.getLast?
      = some (FTPCmd.cwd (posixJoin "/" rb)) ∧
    ((upload_file env s lp fn rb sp permissions_int).raised = none →
      (upload_file env s lp fn rb sp permissions_int).session.dir
        = some (posixJoin "/" rb)) ∧
    (strStartsWith rb "/" = false → posixJoin "/" rb = "/" ++ rb) :=
  ⟨upload_file_last env s lp fn rb sp permissions_int,
   upload_file_dir env s lp fn rb sp permissions_int,
   posixJoin_root rb⟩

/-- C8, witness: a successful upload returns with the session's working
directory restored to the remote base (`/` for an empty `remote_base`). -/
theorem C8_witness :
    (upload_file envOk ⟨[FTPCmd.connect], none⟩ "w8/p8.html" "p8.html" "" "" 664).raised
      = none ∧
    (upload_file envOk ⟨[FTPCmd.connect], none⟩ "w8/p8.html" "p8.html" "" "" 664).session.dir
      = some (posixJoin "/" "") :=
  ⟨by decide,
   (C8_restore_dir envOk ⟨[FTPCmd.connect], none⟩ "w8/p8.html" "p8.html" "" "" 664).2.1
     (by decide)⟩

/-- C9, counterexample: the claim says that with a non-empty source path the
exit status always indicates normal termination.  With a non-empty source
path and a server whose connection attempt raises, the exception propagates
out of `main` uncaught and the process terminates abnormally. -/
theorem C9_counterexample :
    "site9x" ≠ "" ∧
    (main envC9ce wC9ce 5 "site9x" "" false).exit = ExitStatus.uncaught "gaierror" ∧
    isNormalExit (main envC9ce wC9ce 5 "site9x" "" false).exit = false :=
  ⟨by decide, by decide, by decide⟩

/-- C9 (amended): an empty source path exits with status 1 before any
network command is issued; with a non-empty source path, whenever the run
completes (no connection-level or uncaught transfer error propagates) the
process exits normally with status 0, regardless of how many individual
stores were rejected. -/
theorem C9_amended_exit (env : FTPEnv) (w : World) (endTime : Int)
    (sp rb : String) (fu : Bool) :
    (sp = "" → (main env w endTime sp rb fu).exit = ExitStatus.code 1 ∧
       (main env w endTime sp rb fu).trace = []) ∧
    (sp ≠ "" → (check_and_upload_files env w endTime sp rb fu).raised = none →
       (main env w endTime sp rb fu).exit = ExitStatus.code 0) := by
  constructor
  · intro hsp
    unfold main handle_options
    rw [if_pos hsp]
    exact ⟨rfl, rfl⟩
  · intro hsp hr
    unfold main handle_options
    rw [if_neg hsp]
    dsimp only
    rw [hr]

/-- C9, witness: a completed run whose only store is rejected (`553`, zero
successful transfers, count 1) still exits with status 0. -/
theorem C9_witness :
    "site9" ≠ "" ∧
    (check_and_upload_files envC9w wC9w 11 "site9" "" false).raised = none ∧
    siteCount (check_and_upload_files envC9w wC9w 11 "site9" "" false).trace = 0 ∧
    (check_and_upload_files envC9w wC9w 11 "site9" "" false).count = 1 ∧
    (main envC9w wC9w 11 "site9" "" false).exit = ExitStatus.code 0 :=
  ⟨by decide, by decide, by decide, by decide,
   (C9_amended_exit envC9w wC9w 11 "site9" "" false).2 (by decide) (by decide)⟩

/-- C10: every `STOR` command issued during a run names exactly the basename
of the candidate's local path: for a file name containing no slash (the only
names a non-recursive glob can produce), the remote target filename equals
the local name component, so the local subdirectory structure is mapped only
through the manifest entry's sub_path. -/
theorem C10_stor_basename (env : FTPEnv) (w : World) (endTime : Int)
    (sp rb : String) (fu : Bool) (fn : String)
    (h : FTPCmd.stor fn ∈ (check_and_upload_files env w endTime sp rb fu).trace) :
    ∃ f e, f ∈ w.files ∧ e ∈ SUB_PATHS ∧ f.subdir = e.1 ∧
      globMatch e.2.1 f.name = true ∧
      fn = basename (posixJoin (posixJoin sp e.1) f.name) ∧
      ((∀ ch ∈ f.name.data, ch ≠ '/') → fn = f.name) := by
  obtain ⟨⟨f1, s1, m1⟩, hcmem, hfn⟩ := check_stor_sound env w endTime sp rb fu fn h
  rcases (mem_attemptList w fu _).mp hcmem with ⟨hcand, -⟩
  rcases (mem_candidatesOf w SUB_PATHS _).mp hcand with ⟨e, he, hfw, hsub, hglob, hc⟩
  obtain ⟨hs1, hm1⟩ : s1 = e.1 ∧ m1 = e.2.2 := by simpa using hc
  subst hs1
  refine ⟨f1, e, hfw, he, hsub, hglob, ?_, ?_⟩
  · rw [hfn]; simp [candPath]
  · intro hns
    rw [hfn]
    simp only [candPath]
    exact basename_posixJoin (posixJoin sp e.1) f1.name hns

/-- C10, witness: the store command for `images/cat10.jpg` names
`cat10.jpg`, the basename of the local path. -/
theorem C10_witness :
    FTPCmd.stor "cat10.jpg"
      ∈ (check_and_upload_files envOk wC10w 3 "o10" "" false).trace ∧
    (∃ f e, f ∈ wC10w.files ∧ e ∈ SUB_PATHS ∧ f.subdir = e.1 ∧
      globMatch e.2.1 f.name = true ∧
      "cat10.jpg" = basename (posixJoin (posixJoin "o10" e.1) f.name) ∧
      ((∀ ch ∈ f.name.data, ch ≠ '/') → "cat10.jpg" = f.name)) :=
  ⟨by decide, C10_stor_basename envOk wC10w 3 "o10" "" false "cat10.jpg" (by decide)⟩

end PelicanFTP
